import Mathlib

/-!
Verification development for the LiteMCP protocol server
(`packages/litemcp/src/server.ts`).

The embedding models the dynamically typed JavaScript values flowing
through the dispatcher as an inductive `Json` type, JS `Map`s as
insertion-ordered association lists with overwrite-in-place `set`, and
fallible code as `Except Thrown`.  Handlers are opaque Lean functions
from values to `Except Thrown Json`.  Platform-generated exception
messages (JSON.parse syntax errors, zod validation errors, property
access on `undefined`/`null`) are modelled by fixed strings, since only
their Error-ness and non-equality to the dispatcher's own literals
matter to the claims.
-/

namespace LiteMCP

/-- Model of a JavaScript/JSON value as it flows through the dispatcher.
Numbers are modelled as integers (no claim involves float behaviour). -/
inductive Json where
  | null : Json
  | bool (b : Bool) : Json
  | num (n : Int) : Json
  | str (s : String) : Json
  | arr (elems : List Json) : Json
  | obj (fields : List (String × Json)) : Json

/-- A thrown JavaScript value: either an `Error` instance (including
`TypeError`, `SyntaxError`, `ZodError`) carrying a message, or any other
thrown value. -/
inductive Thrown where
  | error (message : String) : Thrown
  | other (value : Json) : Thrown

/-- JS truthiness of a defined value. -/
def jsTruthyVal : Json → Bool
  | .null => false
  | .bool b => b
  | .num n => n != 0
  | .str s => s != ""
  | .arr _ => true
  | .obj _ => true

/-- JS truthiness of a possibly-`undefined` value (`none` = undefined). -/
def jsTruthy : Option Json → Bool
  | none => false
  | some v => jsTruthyVal v

/-- Property read on a defined value: returns the field of an object,
`undefined` (`none`) for a missing key or a non-object receiver. -/
def Json.get : Json → String → Option Json
  | .obj fields, key => lookupField fields key
  | _, _ => none
where lookupField : List (String × Json) → String → Option Json
  | [], _ => none
  | (k, v) :: rest, key => if k = key then some v else lookupField rest key

mutual

/-- String conversion used by JS template literals and `RegExp.test`
coercion.  Array display approximates `Array.prototype.toString` (it
joins element displays with commas; the JS special-casing of
null/undefined elements to the empty string is not modelled — no claim
displays an array). -/
def jsDisplay : Json → String
  | .null => "null"
  | .bool b => if b then "true" else "false"
  | .num n => toString n
  | .str s => s
  | .arr elems => jsDisplayList elems
  | .obj _ => "[object Object]"

/-- Comma join of element displays for `Array.prototype.toString`. -/
def jsDisplayList : List Json → String
  | [] => ""
  | [x] => jsDisplay x
  | x :: y :: xs => jsDisplay x ++ "," ++ jsDisplayList (y :: xs)

end

/-- Display of a possibly-`undefined` value inside a template literal. -/
def jsDisplayOpt : Option Json → String
  | none => "undefined"
  | some v => jsDisplay v

/-- Model of `const \x7b key \x7d = params` for an `Option Json` params:
destructuring `undefined` or `null` throws a `TypeError` (message
modelled), otherwise reads the property. -/
def destructure (params : Option Json) (key : String) : Except Thrown (Option Json) :=
  match params with
  | none => .error (.error ("Cannot destructure property " ++ key ++ " of undefined"))
  | some .null => .error (.error ("Cannot destructure property " ++ key ++ " of null"))
  | some v => .ok (v.get key)

/-- Model of `a || d` where `a` may be undefined and `d` is defined. -/
def jsOr (a : Option Json) (d : Json) : Json :=
  match a with
  | some v => if jsTruthyVal v then v else d
  | none => d

/-- Insertion-ordered association list modelling a JS `Map`'s entries. -/
abbrev JsMap (α : Type) := List (String × α)

/-- Model of `Map.prototype.get` (JS maps have unique keys; we return the
first binding). -/
def mapGet {α : Type} : JsMap α → String → Option α
  | [], _ => none
  | (k, v) :: rest, key => if k = key then some v else mapGet rest key

/-- Model of `Map.prototype.set`: overwrite in place if the key exists
(keeping its position in iteration order), else append. -/
def mapSet {α : Type} : JsMap α → String → α → JsMap α
  | [], key, v => [(key, v)]
  | (k, w) :: rest, key, v =>
      if k = key then (key, v) :: rest else (k, w) :: mapSet rest key v

/-- Model of `Array.from(map.values())`: values in iteration order. -/
def mapValues {α : Type} (m : JsMap α) : List α := m.map Prod.snd

/-- Descriptor of a tool (TS interface `MCPTool`): name, description and
a JSON-Schema-like input shape kept as an opaque JSON value. -/
structure MCPTool where
  name : String
  description : String
  inputSchema : Json

/-- Descriptor of an addressable resource (TS interface `MCPResource`). -/
structure MCPResource where
  uri : String
  name : String
  description : Option String := none
  mimeType : Option String := none

/-- Descriptor of a resource template (TS interface `MCPResourceTemplate`). -/
structure MCPResourceTemplate where
  uriTemplate : String
  name : String
  description : Option String := none
  mimeType : Option String := none

/-- Named argument of a prompt (TS interface `MCPPromptArgument`); the TS
`required?: boolean` field is read only through a truthy check, so an
absent flag and `false` coincide and are both modelled as `false`. -/
structure MCPPromptArgument where
  name : String
  description : Option String := none
  required : Bool := false

/-- Descriptor of a prompt (TS interface `MCPPrompt`). -/
structure MCPPrompt where
  name : String
  description : Option String := none
  arguments : Option (List MCPPromptArgument) := none

/-- Server identity (TS interface `MCPServerInfo`). -/
structure MCPServerInfo where
  name : String
  version : String

/-- A registered tool handler: `await handler(args)` either yields a
value or throws/rejects. -/
abbrev MCPToolHandler := Json → Except Thrown Json

/-- A registered resource handler, invoked with the raw URI value. -/
abbrev MCPResourceHandler := Json → Except Thrown Json

/-- A registered prompt handler. -/
abbrev MCPPromptHandler := Json → Except Thrown Json

/-- A configured sampling handler, invoked with the raw request params. -/
abbrev MCPSamplingHandler := Json → Except Thrown Json

/-- State of an `MCPServer` instance: the four descriptor registries,
the handler maps (note that resources and resource templates share the
single `resourceHandlers` map, exactly as in the class fields), the
sampling handler slot, identity, capabilities and log level.  The log
level is stored as the raw value passed to `logging/setLevel` (the
source accepts any truthy value). -/
structure ServerState where
  tools : JsMap MCPTool
  toolHandlers : JsMap MCPToolHandler
  resources : JsMap MCPResource
  resourceHandlers : JsMap MCPResourceHandler
  resourceTemplates : JsMap MCPResourceTemplate
  prompts : JsMap MCPPrompt
  promptHandlers : JsMap MCPPromptHandler
  samplingHandler : Option MCPSamplingHandler
  serverInfo : MCPServerInfo
  capabilities : Json
  logLevel : Json

/-- Fresh server as built by the constructor (registries empty, sampling
slot empty, log level `info`; default capabilities `\x7btools: \x7b\x7d\x7d`). -/
def mkServer (info : MCPServerInfo) (capabilities : Json := .obj [("tools", .obj [])]) :
    ServerState :=
  { tools := [], toolHandlers := [], resources := [], resourceHandlers := []
    resourceTemplates := [], prompts := [], promptHandlers := []
    samplingHandler := none, serverInfo := info, capabilities := capabilities
    logLevel := .str "info" }

/-- `MCPServer.addTool`. -/
def addTool (s : ServerState) (tool : MCPTool) (handler : MCPToolHandler) : ServerState :=
  { s with tools := mapSet s.tools tool.name tool
           toolHandlers := mapSet s.toolHandlers tool.name handler }

/-- `MCPServer.addResource`: registers the descriptor by exact URI and
the handler in the shared `resourceHandlers` map under the same key. -/
def addResource (s : ServerState) (resource : MCPResource) (handler : MCPResourceHandler) :
    ServerState :=
  { s with resources := mapSet s.resources resource.uri resource
           resourceHandlers := mapSet s.resourceHandlers resource.uri handler }

/-- `MCPServer.addResourceTemplate`: registers the descriptor by raw
template string and the handler in the shared `resourceHandlers` map
under the same key. -/
def addResourceTemplate (s : ServerState) (template : MCPResourceTemplate)
    (handler : MCPResourceHandler) : ServerState :=
  { s with resourceTemplates := mapSet s.resourceTemplates template.uriTemplate template
           resourceHandlers := mapSet s.resourceHandlers template.uriTemplate handler }

/-- `MCPServer.addPrompt`. -/
def addPrompt (s : ServerState) (prompt : MCPPrompt) (handler : MCPPromptHandler) :
    ServerState :=
  { s with prompts := mapSet s.prompts prompt.name prompt
           promptHandlers := mapSet s.promptHandlers prompt.name handler }

/-- `MCPServer.setSamplingHandler`. -/
def setSamplingHandler (s : ServerState) (handler : MCPSamplingHandler) : ServerState :=
  { s with samplingHandler := some handler }

/-- `MCPServer.setLogLevel`. -/
def setLogLevel (s : ServerState) (level : Json) : ServerState :=
  { s with logLevel := level }

/-- One segment of the pattern `matchesTemplate` builds: a literal
character of the template, or the `([^/]+)` group a
`\x7bplaceholder\x7d` was replaced with. -/
inductive Seg where
  | lit (c : Char) : Seg
  | hole : Seg

/-- Scanner for `template.replace(/\x7b[^\x7d]+\x7d/g, ...)`: walks the
template; `pending = some acc` means a `{` has been opened and `acc`
holds (reversed) the characters seen since.  A brace pair enclosing at
least one character becomes a `hole`; an empty pair or an unterminated
`{` stays literal, matching the regex `[^\x7d]+` needing one-or-more
characters and a closing brace. -/
def segsAux : Option (List Char) → List Char → List Seg
  | none, [] => []
  | none, c :: cs =>
      if c = '{' then segsAux (some []) cs else Seg.lit c :: segsAux none cs
  | some acc, [] => Seg.lit '{' :: (acc.reverse.map Seg.lit)
  | some acc, c :: cs =>
      if c = '}' then
        match acc with
        | [] => Seg.lit '{' :: Seg.lit '}' :: segsAux none cs
        | _ :: _ => Seg.hole :: segsAux none cs
      else segsAux (some (c :: acc)) cs

/-- Segment list of a template string (the anchored pattern
`RegExp(&quot;^&quot; + regexPattern + &quot;$&quot;)`; anchoring is expressed by
`matchSegs` consuming the whole candidate).  Literal template characters
are matched as themselves — the source does not escape regex
metacharacters, so this is faithful for templates made of ordinary URI
characters, which all claims use. -/
def templateSegs (template : String) : List Seg :=
  segsAux none template.data

/-- Regex test of the built pattern against the whole candidate: a
`lit c` consumes exactly `c`, a `hole` (the `([^/]+)` group) consumes
one or more non-slash characters, and the match must consume the entire
candidate (the `^...$` anchors). -/
def matchSegs : List Seg → List Char → Bool
  | [], [] => true
  | [], _ :: _ => false
  | Seg.lit _ :: _, [] => false
  | Seg.lit c :: segs, x :: xs => c = x && matchSegs segs xs
  | Seg.hole :: _, [] => false
  | Seg.hole :: segs, x :: xs =>
      if x = '/' then false
      else matchSegs segs xs || matchSegs (Seg.hole :: segs) xs

/-- `MCPServer.matchesTemplate(uri, template)`. -/
def matchesTemplate (uri template : String) : Bool :=
  matchSegs (templateSegs template) uri.data

/-- The fallback loop of `handleResourceRead`: iterate the shared
`resourceHandlers` map in insertion order and take the first entry whose
key, read as a template pattern, matches the URI. -/
def findMatchingHandler : JsMap MCPResourceHandler → String → Option MCPResourceHandler
  | [], _ => none
  | (template, templateHandler) :: rest, uri =>
      if matchesTemplate uri template then some templateHandler
      else findMatchingHandler rest uri

/-- Decoded JSON-RPC request (TS interface `JsonRpcRequest` after
`JsonRpcRequestSchema.parse`): `id` is `none` when absent, `some .null`
when explicitly null; `params` is `none` when absent. -/
structure JsonRpcRequest where
  id : Option Json
  method : String
  params : Option Json

/-- The zod schema `JsonRpcRequestSchema`: an object whose `jsonrpc`
field is the literal string 2.0, whose `id` is absent or a string,
number or null, whose `method` is a string (`z.string()` — any string,
the empty string included), and whose `params` is absent or anything. -/
def parseJsonRpcRequest (j : Json) : Option JsonRpcRequest :=
  match j with
  | .obj fields =>
      match Json.get.lookupField fields "jsonrpc" with
      | some (.str v) =>
          if v = "2.0" then
            match Json.get.lookupField fields "method" with
            | some (.str m) =>
                match Json.get.lookupField fields "id" with
                | none =>
                    some { id := none, method := m
                           params := Json.get.lookupField fields "params" }
                | some idv =>
                    match idv with
                    | .str _ | .num _ | .null =>
                        some { id := some idv, method := m
                               params := Json.get.lookupField fields "params" }
                    | _ => none
            | _ => none
          else none
      | _ => none
  | _ => none

/-- Model of `body.trim()`: strip leading and trailing whitespace
characters. -/
def jsTrim (s : String) : String :=
  String.mk (((s.data.dropWhile Char.isWhitespace).reverse.dropWhile
    Char.isWhitespace).reverse)

/-- Decoding stage of `handleJsonRpcRequest`: reject an empty or
whitespace-only body, then `JSON.parse` (the `parsed` argument is the
outcome of that external primitive on `raw`: `none` models a thrown
`SyntaxError`, whose platform message is modelled by a fixed string),
then `JsonRpcRequestSchema.parse` (a `ZodError`'s platform message is
likewise modelled by a fixed string). -/
def decodeBody (raw : String) (parsed : Option Json) : Except Thrown JsonRpcRequest :=
  if jsTrim raw = "" then .error (.error "Empty request body")
  else
    match parsed with
    | none => .error (.error "Unexpected token in JSON")
    | some j =>
        match parseJsonRpcRequest j with
        | none => .error (.error "Invalid input")
        | some req => .ok req

/-- JSON encoding of a tool descriptor as it appears in `tools/list`. -/
def toolToJson (t : MCPTool) : Json :=
  .obj [("name", .str t.name), ("description", .str t.description),
        ("inputSchema", t.inputSchema)]

/-- Optional string field of a descriptor object (absent when the TS
field is `undefined`, which `JSON.stringify` drops). -/
def optField (key : String) : Option String → List (String × Json)
  | none => []
  | some v => [(key, .str v)]

/-- JSON encoding of a resource descriptor. -/
def resourceToJson (r : MCPResource) : Json :=
  .obj ([("uri", .str r.uri), ("name", .str r.name)]
        ++ optField "description" r.description ++ optField "mimeType" r.mimeType)

/-- JSON encoding of a resource template descriptor. -/
def resourceTemplateToJson (t : MCPResourceTemplate) : Json :=
  .obj ([("uriTemplate", .str t.uriTemplate), ("name", .str t.name)]
        ++ optField "description" t.description ++ optField "mimeType" t.mimeType)

/-- JSON encoding of a prompt argument descriptor. -/
def promptArgumentToJson (a : MCPPromptArgument) : Json :=
  .obj ([("name", .str a.name)] ++ optField "description" a.description
        ++ [("required", .bool a.required)])

/-- JSON encoding of a prompt descriptor. -/
def promptToJson (p : MCPPrompt) : Json :=
  .obj ([("name", .str p.name)] ++ optField "description" p.description
        ++ (match p.arguments with
            | none => []
            | some args => [("arguments", .arr (args.map promptArgumentToJson))]))

/-- `MCPServer.handleInitialize`: fixed protocol version literal, the
capabilities and identity given at construction. -/
def handleInit (s : ServerState) : Json :=
  .obj [("protocolVersion", .str "2024-11-05"),
        ("capabilities", s.capabilities),
        ("serverInfo", .obj [("name", .str s.serverInfo.name),
                             ("version", .str s.serverInfo.version)])]

/-- Result of `tools/list`: every registered descriptor, verbatim, in
map iteration order. -/
def toolsListResult (s : ServerState) : Json :=
  .obj [("tools", .arr ((mapValues s.tools).map toolToJson))]

/-- Result of `resources/list` (`MCPServer.handleResourcesList`). -/
def resourcesListResult (s : ServerState) : Json :=
  .obj [("resources", .arr ((mapValues s.resources).map resourceToJson))]

/-- Result of `resources/templates/list`
(`MCPServer.handleResourceTemplatesList`). -/
def resourceTemplatesListResult (s : ServerState) : Json :=
  .obj [("resourceTemplates",
         .arr ((mapValues s.resourceTemplates).map resourceTemplateToJson))]

/-- Result of `prompts/list` (`MCPServer.handlePromptsList`). -/
def promptsListResult (s : ServerState) : Json :=
  .obj [("prompts", .arr ((mapValues s.prompts).map promptToJson))]

/-- Tool-handler lookup `this.toolHandlers.get(name)` with a raw value
as key: a JS `Map` keyed by strings only hits when `name` is a string. -/
def lookupByRawKey {α : Type} (m : JsMap α) : Option Json → Option α
  | some (.str key) => mapGet m key
  | _ => none

/-- `MCPServer.handleToolCall`. -/
def handleToolCall (s : ServerState) (params : Option Json) : Except Thrown Json :=
  match destructure params "name" with
  | .error e => .error e
  | .ok namev =>
      match destructure params "arguments" with
      | .error e => .error e
      | .ok args =>
          match lookupByRawKey s.toolHandlers namev with
          | none => .error (.error ("Unknown tool: " ++ jsDisplayOpt namev))
          | some handler => handler (jsOr args (.obj []))

/-- `MCPServer.handleResourceRead`: require a truthy `params.uri`, try
the shared handler map by exact key, fall back to the first
template-matching entry of that same map, fail with the resource
not-found error otherwise; on success wrap the handler's single content
value in a one-element `contents` array. -/
def handleResourceRead (s : ServerState) (params : Option Json) : Except Thrown Json :=
  match destructure params "uri" with
  | .error e => .error e
  | .ok uriv =>
      if jsTruthy uriv then
        match uriv with
        | some uri =>
            let direct := lookupByRawKey s.resourceHandlers (some uri)
            let handler := match direct with
              | some h => some h
              | none => findMatchingHandler s.resourceHandlers (jsDisplay uri)
            match handler with
            | none => .error (.error ("Resource not found: " ++ jsDisplay uri))
            | some h =>
                match h uri with
                | .error e => .error e
                | .ok content => .ok (.obj [("contents", .arr [content])])
        | none => .error (.error "URI is required for resource read")
      else .error (.error "URI is required for resource read")

/-- The required-argument loop of `handlePromptGet`: the first argument
flagged required whose value under `args?.[arg.name]` is not truthy
raises the missing-argument error. -/
def checkRequiredArgs : List MCPPromptArgument → Option Json → Except Thrown Unit
  | [], _ => .ok ()
  | a :: rest, args =>
      if a.required && !(jsTruthy (args.bind (fun j => j.get a.name))) then
        .error (.error ("Required argument missing: " ++ a.name))
      else checkRequiredArgs rest args

/-- `MCPServer.handlePromptGet`. -/
def handlePromptGet (s : ServerState) (params : Option Json) : Except Thrown Json :=
  match destructure params "name" with
  | .error e => .error e
  | .ok namev =>
      match destructure params "arguments" with
      | .error e => .error e
      | .ok args =>
          match lookupByRawKey s.prompts namev with
          | none => .error (.error ("Unknown prompt: " ++ jsDisplayOpt namev))
          | some prompt =>
              match lookupByRawKey s.promptHandlers namev with
              | none => .error (.error ("No handler for prompt: " ++ jsDisplayOpt namev))
              | some handler =>
                  match prompt.arguments with
                  | some argList =>
                      match checkRequiredArgs argList args with
                      | .error e => .error e
                      | .ok _ => handler (jsOr args (.obj []))
                  | none => handler (jsOr args (.obj []))

/-- The `messages` validation of `handleSampling`:
`!params.messages || !Array.isArray(params.messages) ||
params.messages.length === 0`. -/
def samplingMessagesInvalid (msgs : Option Json) : Bool :=
  !(jsTruthy msgs)
  || !(match msgs with | some (.arr _) => true | _ => false)
  || (match msgs with | some (.arr l) => l.isEmpty | _ => false)

/-- `MCPServer.handleSampling`: the empty-slot check precedes the
`params.messages` read, which on an absent or null `params` throws a
`TypeError` (platform message modelled by a fixed string); a configured
handler receives the raw params and its result is returned verbatim. -/
def handleSampling (s : ServerState) (params : Option Json) : Except Thrown Json :=
  match s.samplingHandler with
  | none => .error (.error "Sampling handler not configured")
  | some handler =>
      match params with
      | none => .error (.error "Cannot read properties of undefined (reading messages)")
      | some .null => .error (.error "Cannot read properties of null (reading messages)")
      | some j =>
          if samplingMessagesInvalid (j.get "messages") then
            .error (.error "Messages array is required and cannot be empty")
          else handler j

/-- `MCPServer.handleSetLogLevel`: the only state-mutating branch. -/
def handleSetLogLevel (s : ServerState) (params : Option Json) :
    Except Thrown Json × ServerState :=
  match destructure params "level" with
  | .error e => (.error e, s)
  | .ok levelv =>
      match levelv with
      | some level =>
          if jsTruthyVal level then (.ok (.obj []), setLogLevel s level)
          else (.error (.error "Log level is required"), s)
      | none => (.error (.error "Log level is required"), s)

/-- `MCPServer.processJsonRpcMethod`: the method routing table.  A JS
`null` result (the no-response sentinel) is `Json.null`. -/
def processJsonRpcMethod (s : ServerState) (req : JsonRpcRequest) :
    Except Thrown Json × ServerState :=
  match req.method with
  | "initialize" => (.ok (handleInit s), s)
  | "notifications/initialized" => (.ok .null, s)
  | "tools/list" => (.ok (toolsListResult s), s)
  | "tools/call" => (handleToolCall s req.params, s)
  | "resources/list" => (.ok (resourcesListResult s), s)
  | "resources/templates/list" => (.ok (resourceTemplatesListResult s), s)
  | "resources/read" => (handleResourceRead s req.params, s)
  | "prompts/list" => (.ok (promptsListResult s), s)
  | "prompts/get" => (handlePromptGet s req.params, s)
  | "sampling/createMessage" => (handleSampling s req.params, s)
  | "logging/setLevel" => handleSetLogLevel s req.params
  | m => (.error (.error ("Unknown method: " ++ m)), s)

/-- Wire error object of a JSON-RPC error response. -/
structure JsonRpcError where
  code : Int
  message : String

/-- Wire body of a JSON-RPC response (TS interface `JsonRpcResponse`). -/
structure JsonRpcResponse where
  jsonrpc : String
  id : Json
  result : Option Json
  error : Option JsonRpcError

/-- An HTTP reply from the dispatcher boundary: a status and an optional
JSON-RPC body (`none` models `new Response(null)`). -/
structure HttpReply where
  status : Nat
  body : Option JsonRpcResponse

/-- `MCPServer.createErrorResponse`: fixed code `-32603`; the message is
the thrown `Error`'s message, or the literal `Internal error` when the
thrown value is not an `Error`. -/
def createErrorResponse (e : Thrown) (id : Json) : HttpReply :=
  { status := 500
    body := some { jsonrpc := "2.0", id := id
                   result := none
                   error := some { code := -32603
                                   message := match e with
                                     | .error m => m
                                     | .other _ => "Internal error" } } }

/-- `MCPServer.handleJsonRpcRequest` (the POST branch): decode, route,
render a 204 no-body reply when the routed result is the `null`
sentinel, otherwise a 200 success envelope echoing `id ?? null`; any
exception from any stage is converted by `createErrorResponse` with a
null id. -/
def handleJsonRpcRequest (s : ServerState) (raw : String) (parsed : Option Json) :
    HttpReply × ServerState :=
  match decodeBody raw parsed with
  | .error e => (createErrorResponse e .null, s)
  | .ok req =>
      match processJsonRpcMethod s req with
      | (.error e, s1) => (createErrorResponse e .null, s1)
      | (.ok result, s1) =>
          match result with
          | .null => ({ status := 204, body := none }, s1)
          | r =>
              ({ status := 200
                 body := some { jsonrpc := "2.0"
                                id := match req.id with
                                  | none => .null
                                  | some v => v
                                result := some r
                                error := none } }, s1)

/-! ### Map lemmas -/

theorem mapGet_mapSet_self {α : Type} (m : JsMap α) (k : String) (v : α) :
    mapGet (mapSet m k v) k = some v := by
  induction m with
  | nil => simp [mapSet, mapGet]
  | cons p rest ih =>
      by_cases h : p.1 = k
      · cases p
        simp_all [mapSet, mapGet]
      · cases p
        simp_all [mapSet, mapGet]

theorem filter_key_of_not_mem {α : Type} (m : JsMap α) (k : String)
    (h : k ∉ m.map Prod.fst) : m.filter (fun p => p.1 == k) = [] := by
  induction m with
  | nil => rfl
  | cons p rest ih =>
      simp only [List.map_cons, List.mem_cons] at h
      push_neg at h
      simp [List.filter_cons, ih h.2, beq_iff_eq, Ne.symm, h.1]

theorem filter_key_mapSet {α : Type} (m : JsMap α) (k : String) (v : α)
    (h : (m.map Prod.fst).Nodup) :
    (mapSet m k v).filter (fun p => p.1 == k) = [(k, v)] := by
  induction m with
  | nil => simp [mapSet, List.filter_cons]
  | cons p rest ih =>
      obtain ⟨k', w⟩ := p
      simp only [List.map_cons, List.nodup_cons] at h
      by_cases hk : k' = k
      · subst hk
        simp [mapSet, List.filter_cons, filter_key_of_not_mem rest k' h.1]
      · simp [mapSet, hk, List.filter_cons, ih h.2]

theorem mem_keys_mapSet {α : Type} (m : JsMap α) (k x : String) (v : α)
    (h : x ∈ (mapSet m k v).map Prod.fst) : x = k ∨ x ∈ m.map Prod.fst := by
  induction m with
  | nil => simpa [mapSet] using h
  | cons p rest ih =>
      obtain ⟨k', w⟩ := p
      by_cases hk : k' = k
      · subst hk
        simpa [mapSet] using h
      · simp only [mapSet, hk, if_false, List.map_cons, List.mem_cons] at h
        rcases h with h | h
        · simp [h]
        · rcases ih h with h | h
          · exact Or.inl h
          · simp [h]

theorem nodup_keys_mapSet {α : Type} (m : JsMap α) (k : String) (v : α)
    (h : (m.map Prod.fst).Nodup) : ((mapSet m k v).map Prod.fst).Nodup := by
  induction m with
  | nil => simp [mapSet]
  | cons p rest ih =>
      obtain ⟨k', w⟩ := p
      simp only [List.map_cons, List.nodup_cons] at h
      by_cases hk : k' = k
      · subst hk
        simp [mapSet, List.nodup_cons, h.1, h.2]
      · simp only [mapSet, hk, if_false, List.map_cons]
        refine List.nodup_cons.mpr ⟨fun hmem => ?_, ih h.2⟩
        rcases mem_keys_mapSet rest k k' v hmem with h1 | h1
        · exact hk h1
        · exact h.1 h1

theorem filter_key_mapSet_twice {α : Type} (m : JsMap α) (k : String) (v1 v2 : α)
    (h : (m.map Prod.fst).Nodup) :
    (mapSet (mapSet m k v1) k v2).filter (fun p => p.1 == k) = [(k, v2)] :=
  filter_key_mapSet (mapSet m k v1) k v2 (nodup_keys_mapSet m k v1 h)

theorem mapGet_mapSet_twice {α : Type} (m : JsMap α) (k : String) (v1 v2 : α) :
    mapGet (mapSet (mapSet m k v1) k v2) k = some v2 :=
  mapGet_mapSet_self (mapSet m k v1) k v2

/-- C5: for every registry (actions, resources, resource templates,
prompts), registering two entries under the same key (on a server state
whose maps have the unique keys a JS `Map` guarantees) leaves exactly
one entry for that key — the second registration's descriptor — in the
descriptor map that listings render, and lookups in both the descriptor
map and the handler map return the second registration's descriptor and
handler (last-write-wins). -/
theorem c5_last_write_wins
    (s : ServerState)
    (t1 t2 : MCPTool) (th1 th2 : MCPToolHandler)
    (r1 r2 : MCPResource) (rh1 rh2 : MCPResourceHandler)
    (tp1 tp2 : MCPResourceTemplate) (tph1 tph2 : MCPResourceHandler)
    (p1 p2 : MCPPrompt) (ph1 ph2 : MCPPromptHandler)
    (hts : (s.tools.map Prod.fst).Nodup)
    (hth : (s.toolHandlers.map Prod.fst).Nodup)
    (hrs : (s.resources.map Prod.fst).Nodup)
    (hrh : (s.resourceHandlers.map Prod.fst).Nodup)
    (htps : (s.resourceTemplates.map Prod.fst).Nodup)
    (hps : (s.prompts.map Prod.fst).Nodup)
    (hph : (s.promptHandlers.map Prod.fst).Nodup)
    (ht : t1.name = t2.name) (hr : r1.uri = r2.uri)
    (htp : tp1.uriTemplate = tp2.uriTemplate) (hp : p1.name = p2.name) :
    ((addTool (addTool s t1 th1) t2 th2).tools.filter
        (fun q => q.1 == t2.name) = [(t2.name, t2)]
     ∧ mapGet (addTool (addTool s t1 th1) t2 th2).tools t2.name = some t2
     ∧ (addTool (addTool s t1 th1) t2 th2).toolHandlers.filter
        (fun q => q.1 == t2.name) = [(t2.name, th2)]
     ∧ mapGet (addTool (addTool s t1 th1) t2 th2).toolHandlers t2.name = some th2)
    ∧ ((addResource (addResource s r1 rh1) r2 rh2).resources.filter
        (fun q => q.1 == r2.uri) = [(r2.uri, r2)]
     ∧ mapGet (addResource (addResource s r1 rh1) r2 rh2).resources r2.uri = some r2
     ∧ (addResource (addResource s r1 rh1) r2 rh2).resourceHandlers.filter
        (fun q => q.1 == r2.uri) = [(r2.uri, rh2)]
     ∧ mapGet (addResource (addResource s r1 rh1) r2 rh2).resourceHandlers r2.uri
        = some rh2)
    ∧ ((addResourceTemplate (addResourceTemplate s tp1 tph1) tp2 tph2).resourceTemplates.filter
        (fun q => q.1 == tp2.uriTemplate) = [(tp2.uriTemplate, tp2)]
     ∧ mapGet (addResourceTemplate (addResourceTemplate s tp1 tph1) tp2 tph2).resourceTemplates
        tp2.uriTemplate = some tp2
     ∧ (addResourceTemplate (addResourceTemplate s tp1 tph1) tp2 tph2).resourceHandlers.filter
        (fun q => q.1 == tp2.uriTemplate) = [(tp2.uriTemplate, tph2)]
     ∧ mapGet (addResourceTemplate (addResourceTemplate s tp1 tph1) tp2 tph2).resourceHandlers
        tp2.uriTemplate = some tph2)
    ∧ ((addPrompt (addPrompt s p1 ph1) p2 ph2).prompts.filter
        (fun q => q.1 == p2.name) = [(p2.name, p2)]
     ∧ mapGet (addPrompt (addPrompt s p1 ph1) p2 ph2).prompts p2.name = some p2
     ∧ (addPrompt (addPrompt s p1 ph1) p2 ph2).promptHandlers.filter
        (fun q => q.1 == p2.name) = [(p2.name, ph2)]
     ∧ mapGet (addPrompt (addPrompt s p1 ph1) p2 ph2).promptHandlers p2.name
        = some ph2) := by
  refine ⟨⟨?_, ?_, ?_, ?_⟩, ⟨?_, ?_, ?_, ?_⟩, ⟨?_, ?_, ?_, ?_⟩, ⟨?_, ?_, ?_, ?_⟩⟩
  · simpa [addTool, ht] using filter_key_mapSet_twice s.tools t2.name t1 t2 hts
  · simpa [addTool, ht] using mapGet_mapSet_twice s.tools t2.name t1 t2
  · simpa [addTool, ht] using filter_key_mapSet_twice s.toolHandlers t2.name th1 th2 hth
  · simpa [addTool, ht] using mapGet_mapSet_twice s.toolHandlers t2.name th1 th2
  · simpa [addResource, hr] using filter_key_mapSet_twice s.resources r2.uri r1 r2 hrs
  · simpa [addResource, hr] using mapGet_mapSet_twice s.resources r2.uri r1 r2
  · simpa [addResource, hr] using
      filter_key_mapSet_twice s.resourceHandlers r2.uri rh1 rh2 hrh
  · simpa [addResource, hr] using mapGet_mapSet_twice s.resourceHandlers r2.uri rh1 rh2
  · simpa [addResourceTemplate, htp] using
      filter_key_mapSet_twice s.resourceTemplates tp2.uriTemplate tp1 tp2 htps
  · simpa [addResourceTemplate, htp] using
      mapGet_mapSet_twice s.resourceTemplates tp2.uriTemplate tp1 tp2
  · simpa [addResourceTemplate, htp] using
      filter_key_mapSet_twice s.resourceHandlers tp2.uriTemplate tph1 tph2 hrh
  · simpa [addResourceTemplate, htp] using
      mapGet_mapSet_twice s.resourceHandlers tp2.uriTemplate tph1 tph2
  · simpa [addPrompt, hp] using filter_key_mapSet_twice s.prompts p2.name p1 p2 hps
  · simpa [addPrompt, hp] using mapGet_mapSet_twice s.prompts p2.name p1 p2
  · simpa [addPrompt, hp] using
      filter_key_mapSet_twice s.promptHandlers p2.name ph1 ph2 hph
  · simpa [addPrompt, hp] using mapGet_mapSet_twice s.promptHandlers p2.name ph1 ph2

/-- Witness for C5 on a fresh server: two tools registered under the
name `a`; the descriptor map holds exactly the second descriptor and the
handler lookup returns the second handler. -/
theorem c5_witness :
    (addTool (addTool (mkServer ⟨"srv", "1"⟩) ⟨"a", "d1", .null⟩
        (fun _ => .ok (.str "one"))) ⟨"a", "d2", .null⟩
        (fun _ => .ok (.str "two"))).tools.filter
      (fun q => q.1 == "a") = [("a", ⟨"a", "d2", .null⟩)]
    ∧ mapGet (addTool (addTool (mkServer ⟨"srv", "1"⟩) ⟨"a", "d1", .null⟩
        (fun _ => .ok (.str "one"))) ⟨"a", "d2", .null⟩
        (fun _ => .ok (.str "two"))).toolHandlers "a"
      = some (fun _ => .ok (.str "two")) := by
  have h := c5_last_write_wins (mkServer ⟨"srv", "1"⟩)
    ⟨"a", "d1", .null⟩ ⟨"a", "d2", .null⟩
    (fun _ => .ok (.str "one")) (fun _ => .ok (.str "two"))
    ⟨"u", "r1", none, none⟩ ⟨"u", "r2", none, none⟩
    (fun _ => .ok .null) (fun _ => .ok .null)
    ⟨"t", "n1", none, none⟩ ⟨"t", "n2", none, none⟩
    (fun _ => .ok .null) (fun _ => .ok .null)
    ⟨"p", none, none⟩ ⟨"p", none, none⟩
    (fun _ => .ok .null) (fun _ => .ok .null)
    (by simp [mkServer]) (by simp [mkServer]) (by simp [mkServer])
    (by simp [mkServer]) (by simp [mkServer]) (by simp [mkServer])
    (by simp [mkServer]) rfl rfl rfl rfl
  exact ⟨h.1.1, h.1.2.2.2⟩

/-! ### Semantics of the template matcher -/

/-- Declarative reading of the pattern built by `matchesTemplate`: a
literal segment consumes exactly its character, a placeholder segment
consumes one or more characters none of which is a slash, and the whole
candidate must be consumed (the `^...$` anchors). -/
inductive SegsMatch : List Seg → List Char → Prop where
  | nil : SegsMatch [] []
  | lit (c : Char) (segs : List Seg) (cs : List Char) :
      SegsMatch segs cs → SegsMatch (Seg.lit c :: segs) (c :: cs)
  | hole (w : List Char) (segs : List Seg) (cs : List Char) :
      w ≠ [] → (∀ c ∈ w, c ≠ '/') → SegsMatch segs cs →
      SegsMatch (Seg.hole :: segs) (w ++ cs)

theorem matchSegs_hole_extend (w : List Char) (segs : List Seg) (cs : List Char)
    (hw : w ≠ []) (hs : ∀ c ∈ w, c ≠ '/') (h : matchSegs segs cs = true) :
    matchSegs (Seg.hole :: segs) (w ++ cs) = true := by
  induction w with
  | nil => exact absurd rfl hw
  | cons x w' ih =>
      have hx : x ≠ '/' := hs x (by simp)
      simp only [List.cons_append, matchSegs, hx, if_false, Bool.or_eq_true]
      cases w' with
      | nil => exact Or.inl (by simpa using h)
      | cons y w'' =>
          exact Or.inr (ih (by simp) (fun c hc => hs c (List.mem_cons_of_mem x hc)))

theorem segsMatch_of_matchSegs :
    ∀ (n : Nat) (segs : List Seg) (cs : List Char), cs.length ≤ n →
      matchSegs segs cs = true → SegsMatch segs cs := by
  intro n
  induction n with
  | zero =>
      intro segs cs hlen h
      have hcs : cs = [] := by
        cases cs with
        | nil => rfl
        | cons x xs => simp at hlen
      subst hcs
      cases segs with
      | nil => exact SegsMatch.nil
      | cons sg rest => cases sg <;> simp [matchSegs] at h
  | succ n ih =>
      intro segs cs hlen h
      cases cs with
      | nil =>
          cases segs with
          | nil => exact SegsMatch.nil
          | cons sg rest => cases sg <;> simp [matchSegs] at h
      | cons x xs =>
          have hxs : xs.length ≤ n := by
            simpa [Nat.succ_le_succ_iff] using hlen
          cases segs with
          | nil => simp [matchSegs] at h
          | cons sg rest =>
              cases sg with
              | lit c =>
                  simp only [matchSegs, Bool.and_eq_true, decide_eq_true_eq] at h
                  obtain ⟨hc, hrest⟩ := h
                  subst hc
                  exact SegsMatch.lit c rest xs (ih rest xs hxs hrest)
              | hole =>
                  by_cases hx : x = '/'
                  · simp [matchSegs, hx] at h
                  · simp only [matchSegs, hx, if_false, Bool.or_eq_true] at h
                    rcases h with h | h
                    · have sm := ih rest xs hxs h
                      have := SegsMatch.hole [x] rest xs (by simp)
                        (by intro c hc; rw [List.mem_singleton] at hc; subst hc; exact hx)
                        sm
                      simpa using this
                    · have sm := ih (Seg.hole :: rest) xs hxs h
                      cases sm with
                      | hole w segs2 cs2 hw hsl sm2 =>
                          have := SegsMatch.hole (x :: w) rest cs2 (by simp)
                            (by
                              intro c hc
                              rcases List.mem_cons.mp hc with hc | hc
                              · subst hc; exact hx
                              · exact hsl c hc)
                            sm2
                          simpa using this

theorem matchSegs_of_segsMatch {segs : List Seg} {cs : List Char}
    (h : SegsMatch segs cs) : matchSegs segs cs = true := by
  induction h with
  | nil => rfl
  | lit c segs cs _ ih => simp [matchSegs, ih]
  | hole w segs cs hw hsl _ ih => exact matchSegs_hole_extend w segs cs hw hsl ih

theorem matchSegs_iff (segs : List Seg) (cs : List Char) :
    matchSegs segs cs = true ↔ SegsMatch segs cs :=
  ⟨fun h => segsMatch_of_matchSegs cs.length segs cs le_rfl h,
   fun h => matchSegs_of_segsMatch h⟩

theorem findMatchingHandler_first (pre : JsMap MCPResourceHandler) (k : String)
    (h : MCPResourceHandler) (post : JsMap MCPResourceHandler) (uri : String)
    (hpre : ∀ p ∈ pre, matchesTemplate uri p.1 = false)
    (hk : matchesTemplate uri k = true) :
    findMatchingHandler (pre ++ (k, h) :: post) uri = some h := by
  induction pre with
  | nil => simp [findMatchingHandler, hk]
  | cons q rest ih =>
      obtain ⟨kq, hq⟩ := q
      have hq1 : matchesTemplate uri kq = false := hpre (kq, hq) (by simp)
      simp only [List.cons_append, findMatchingHandler, hq1]
      simp only [Bool.false_eq_true, if_false]
      exact ih (fun p hp => hpre p (List.mem_cons_of_mem _ hp))

/-- C8: template matching replaces every placeholder with a
one-or-more-non-slash-characters group and anchors the pattern to the
full candidate (the `SegsMatch` characterization; greedy versus
non-greedy is unobservable in a boolean anchored test, so the matched
language is exactly this); the fallback returns the first entry in
registry iteration order that matches; and for template
`logs://\x7bdate\x7d/\x7blevel\x7d` the URI `logs://2024-01-15/error`
matches and the registered handler is invoked with that literal URI
string. -/
theorem c8_template_matching :
    (∀ (template uri : String),
        matchesTemplate uri template = true ↔ SegsMatch (templateSegs template) uri.data)
    ∧ (∀ (pre : JsMap MCPResourceHandler) (k : String) (h : MCPResourceHandler)
         (post : JsMap MCPResourceHandler) (uri : String),
        (∀ p ∈ pre, matchesTemplate uri p.1 = false) → matchesTemplate uri k = true →
        findMatchingHandler (pre ++ (k, h) :: post) uri = some h)
    ∧ matchesTemplate "logs://2024-01-15/error" "logs://{date}/{level}" = true
    ∧ (∀ (handler : MCPResourceHandler) (info : MCPServerInfo),
        handleResourceRead
          (addResourceTemplate (mkServer info)
            ⟨"logs://{date}/{level}", "Logs", none, none⟩ handler)
          (some (.obj [("uri", .str "logs://2024-01-15/error")]))
        = (match handler (.str "logs://2024-01-15/error") with
           | .error e => .error e
           | .ok content => .ok (.obj [("contents", .arr [content])]))) := by
  refine ⟨fun template uri => matchSegs_iff (templateSegs template) uri.data,
          fun pre k h post uri hpre hk => findMatchingHandler_first pre k h post uri hpre hk,
          rfl,
          fun handler info => rfl⟩

/-- Witness for C8: a non-matching entry precedes the matching template
in the shared handler map, and the first matching entry is returned. -/
theorem c8_witness :
    findMatchingHandler
      [("a://x", fun _ => .ok .null), ("b://{v}", fun _ => .ok (.str "B"))]
      "b://1" = some (fun _ => .ok (.str "B")) := by
  have h := c8_template_matching
  exact h.2.1 [("a://x", fun _ => .ok .null)] "b://{v}" (fun _ => .ok (.str "B")) []
    "b://1" (by decide) (by decide)

/-- Concrete resource handler returning a recognizable content value. -/
def hFromResource : MCPResourceHandler := fun _ => .ok (.str "from-resource")

/-- Concrete template handler returning a recognizable content value. -/
def hFromTemplate : MCPResourceHandler := fun _ => .ok (.str "from-template")

/-- Server state registering a resource and then a resource template
under the same key string `file://a`. -/
def sSharedKey : ServerState :=
  addResourceTemplate
    (addResource (mkServer ⟨"srv", "1"⟩) ⟨"file://a", "A", none, none⟩ hFromResource)
    ⟨"file://a", "A-tpl", none, none⟩ hFromTemplate

/-- Counterexample to C1: the URI `file://a` is an exact key of the
resource registry (its descriptor is still registered), yet
`resources/read` on exactly that URI returns the content produced by the
later-registered template's handler, not the resource's handler —
because both registrations share the single `resourceHandlers` map. -/
theorem c1_counterexample :
    mapGet sSharedKey.resources "file://a" = some ⟨"file://a", "A", none, none⟩
    ∧ handleResourceRead sSharedKey (some (.obj [("uri", .str "file://a")]))
        = .ok (.obj [("contents", .arr [.str "from-template"])])
    ∧ hFromResource (.str "file://a") = .ok (.str "from-resource")
    ∧ Json.str "from-template" ≠ Json.str "from-resource" := by
  refine ⟨rfl, rfl, rfl, fun h => ?_⟩
  rw [Json.str.injEq] at h
  exact absurd h (by decide)

/-- C1 as amended: resolution consults the single shared handler map
(which resources and templates both populate, the most recent
registration under a key winning): exact key lookup first, then the
first entry of that shared map in insertion order whose key matches as a
pattern, and a resource-not-found error when neither applies. -/
theorem c1_amended_resolution (s : ServerState) (u : String) (params : Option Json)
    (hparams : destructure params "uri" = .ok (some (.str u)))
    (hu : u ≠ "") :
    (∀ h, mapGet s.resourceHandlers u = some h →
        handleResourceRead s params
          = (match h (.str u) with
             | .error e => .error e
             | .ok content => .ok (.obj [("contents", .arr [content])])))
    ∧ (∀ h, mapGet s.resourceHandlers u = none →
        findMatchingHandler s.resourceHandlers u = some h →
        handleResourceRead s params
          = (match h (.str u) with
             | .error e => .error e
             | .ok content => .ok (.obj [("contents", .arr [content])])))
    ∧ (mapGet s.resourceHandlers u = none →
        findMatchingHandler s.resourceHandlers u = none →
        handleResourceRead s params = .error (.error ("Resource not found: " ++ u)))
    ∧ (∀ (s0 : ServerState) (r : MCPResource) (t : MCPResourceTemplate)
         (h1 h2 : MCPResourceHandler), r.uri = t.uriTemplate →
        mapGet (addResourceTemplate (addResource s0 r h1) t h2).resourceHandlers r.uri
          = some h2) := by
  have htr : jsTruthy (some (Json.str u)) = true := by
    simp [jsTruthy, jsTruthyVal, hu]
  refine ⟨?_, ?_, ?_, ?_⟩
  · intro h hdir
    simp [handleResourceRead, hparams, htr, lookupByRawKey, hdir, jsDisplay]
  · intro h hdir hfall
    simp [handleResourceRead, hparams, htr, lookupByRawKey, hdir, hfall, jsDisplay]
  · intro hdir hfall
    simp [handleResourceRead, hparams, htr, lookupByRawKey, hdir, hfall, jsDisplay]
  · intro s0 r t h1 h2 hk
    simp only [addResource, addResourceTemplate, ← hk]
    exact mapGet_mapSet_twice s0.resourceHandlers r.uri h1 h2

/-- Witness for C1's amended resolution on the shared-key state: the
exact entry (the later-registered template handler) is found and used. -/
theorem c1_amended_witness :
    handleResourceRead sSharedKey (some (.obj [("uri", .str "file://a")]))
      = .ok (.obj [("contents", .arr [.str "from-template"])]) := by
  have h := c1_amended_resolution sSharedKey "file://a"
    (some (.obj [("uri", .str "file://a")])) rfl (by decide)
  exact h.1 hFromTemplate rfl

/-- Server state registering a resource whose URI contains a placeholder
and then a distinct template, both matching the URI `logs://x`. -/
def sResourceShadows : ServerState :=
  addResourceTemplate
    (addResource (mkServer ⟨"srv", "1"⟩) ⟨"logs://{d}", "R", none, none⟩ hFromResource)
    ⟨"logs://{name}", "T", none, none⟩ hFromTemplate

/-- Server state registering a resource and then a template under the
same key `logs://\x7bx\x7d` (a key that, read as a pattern, also matches
other URIs, so both read paths can be exercised). -/
def sC10a : ServerState :=
  addResourceTemplate
    (addResource (mkServer ⟨"srv", "1"⟩) ⟨"logs://{x}", "R", none, none⟩ hFromResource)
    ⟨"logs://{x}", "T", none, none⟩ hFromTemplate

/-- C10: resources and templates share one handler map keyed by the raw
string.  (a) After registering a resource and then a template under the
same key, the later handler serves both the exact-read path and the
template-fallback path.  (b) The fallback iterates the combined map, so
an exact resource entry whose URI, read as a pattern, matches the
candidate is selected ahead of a registered template that also
matches. -/
theorem c10_shared_handler_map :
    (mapGet sC10a.resourceHandlers "logs://{x}" = some hFromTemplate
     ∧ handleResourceRead sC10a (some (.obj [("uri", .str "logs://{x}")]))
         = .ok (.obj [("contents", .arr [.str "from-template"])])
     ∧ handleResourceRead sC10a (some (.obj [("uri", .str "logs://abc")]))
         = .ok (.obj [("contents", .arr [.str "from-template"])]))
    ∧ (matchesTemplate "logs://x" "logs://{d}" = true
     ∧ matchesTemplate "logs://x" "logs://{name}" = true
     ∧ mapGet sResourceShadows.resourceHandlers "logs://x" = none
     ∧ handleResourceRead sResourceShadows (some (.obj [("uri", .str "logs://x")]))
         = .ok (.obj [("contents", .arr [.str "from-resource"])])) :=
  ⟨⟨rfl, rfl, rfl⟩, ⟨rfl, rfl, rfl, rfl⟩⟩

/-- Counterexample to C2: the dispatcher does not branch on the
identifier.  An envelope WITH an id whose method is
`notifications/initialized` gets no response body (204), and an envelope
WITHOUT an id whose method is `tools/list` gets a full response body
with the echoed id defaulted to null. -/
theorem c2_counterexample :
    (handleJsonRpcRequest (mkServer ⟨"srv", "1"⟩)
        "\x7b\"jsonrpc\":\"2.0\",\"id\":1,\"method\":\"notifications/initialized\"\x7d"
        (some (.obj [("jsonrpc", .str "2.0"), ("id", .num 1),
          ("method", .str "notifications/initialized")]))).1
      = { status := 204, body := none }
    ∧ (handleJsonRpcRequest (mkServer ⟨"srv", "1"⟩)
        "\x7b\"jsonrpc\":\"2.0\",\"method\":\"tools/list\"\x7d"
        (some (.obj [("jsonrpc", .str "2.0"), ("method", .str "tools/list")]))).1
      = { status := 200
          body := some { jsonrpc := "2.0", id := .null
                         result := some (.obj [("tools", .arr [])])
                         error := none } } :=
  ⟨rfl, rfl⟩

/-- C2 as amended: the dispatcher distinguishes by routed result, not by
identifier — a response body is absent exactly when the routed method
returns the `null` sentinel, which `notifications/initialized` always
does; any other successful result yields a body whatever the id, with
the echoed id defaulting to null. -/
theorem c2_amended_body_iff_null (s : ServerState) (raw : String)
    (parsed : Option Json) (req : JsonRpcRequest)
    (hdec : decodeBody raw parsed = .ok req) :
    (∀ r, (processJsonRpcMethod s req).1 = .ok r →
        ((handleJsonRpcRequest s raw parsed).1.body = none ↔ r = .null))
    ∧ (req.method = "notifications/initialized" →
        (processJsonRpcMethod s req).1 = .ok .null)
    ∧ (∀ r, (processJsonRpcMethod s req).1 = .ok r → r ≠ .null →
        ∃ b, (handleJsonRpcRequest s raw parsed).1.body = some b
          ∧ b.id = (match req.id with | none => .null | some v => v)
          ∧ b.result = some r ∧ b.error = none) := by
  refine ⟨?_, ?_, ?_⟩
  · intro r hr
    rcases hp : processJsonRpcMethod s req with ⟨res, s1⟩
    rw [hp] at hr
    simp only at hr
    subst hr
    cases r <;> simp [handleJsonRpcRequest, hdec, hp]
  · intro hm
    simp [processJsonRpcMethod, hm]
  · intro r hr hnull
    rcases hp : processJsonRpcMethod s req with ⟨res, s1⟩
    rw [hp] at hr
    simp only at hr
    subst hr
    cases r <;> simp_all [handleJsonRpcRequest, hdec, hp]

/-- Witness for C2's amended claim: an id-less `tools/list` envelope on
a fresh server produces a response body with id null carrying the empty
tools listing. -/
theorem c2_witness :
    ∃ b, (handleJsonRpcRequest (mkServer ⟨"srv", "1"⟩)
        "\x7b\"jsonrpc\":\"2.0\",\"method\":\"tools/list\"\x7d"
        (some (.obj [("jsonrpc", .str "2.0"), ("method", .str "tools/list")]))).1.body
        = some b
      ∧ b.id = .null ∧ b.result = some (.obj [("tools", .arr [])]) ∧ b.error = none := by
  have h := c2_amended_body_iff_null (mkServer ⟨"srv", "1"⟩)
    "\x7b\"jsonrpc\":\"2.0\",\"method\":\"tools/list\"\x7d"
    (some (.obj [("jsonrpc", .str "2.0"), ("method", .str "tools/list")]))
    { id := none, method := "tools/list", params := none } rfl
  simpa using h.2.2 (.obj [("tools", .arr [])]) rfl (by simp)

/-- C3: the dispatcher boundary is total — every incoming POST body
yields either a 204 no-body reply, a 200 success envelope with no error
member, or the single error envelope with the fixed code `-32603` and a
message that is the thrown `Error`'s text (or the literal
`Internal error` when the thrown value is not an `Error`); a raw
exception is never propagated.  All failure sources — non-decodable
envelope, unknown method, unknown tool or prompt, missing URI or
argument, unconfigured sampling, or a throwing handler — appear here as
the `Except.error` outcomes of `decodeBody` and
`processJsonRpcMethod`. -/
theorem c3_single_error_boundary (s : ServerState) (raw : String)
    (parsed : Option Json) :
    (∃ req r, decodeBody raw parsed = .ok req
       ∧ (processJsonRpcMethod s req).1 = .ok r
       ∧ ((r = .null ∧ (handleJsonRpcRequest s raw parsed).1
             = { status := 204, body := none })
          ∨ (r ≠ .null ∧ (handleJsonRpcRequest s raw parsed).1.status = 200
             ∧ ∃ b, (handleJsonRpcRequest s raw parsed).1.body = some b
                 ∧ b.error = none ∧ b.result = some r)))
    ∨ (∃ e, (decodeBody raw parsed = .error e
          ∨ ∃ req, decodeBody raw parsed = .ok req
              ∧ (processJsonRpcMethod s req).1 = .error e)
       ∧ (handleJsonRpcRequest s raw parsed).1 = createErrorResponse e .null
       ∧ ∃ b, (handleJsonRpcRequest s raw parsed).1.body = some b
           ∧ b.result = none
           ∧ b.error = some { code := -32603
                              message := match e with
                                | .error m => m
                                | .other _ => "Internal error" }) := by
  rcases hdec : decodeBody raw parsed with e | req
  · cases e with
    | error m =>
        refine Or.inr ⟨.error m, Or.inl rfl, ?_,
          ⟨{ jsonrpc := "2.0", id := .null, result := none
             error := some { code := -32603, message := m } }, ?_, rfl, rfl⟩⟩
        · simp [handleJsonRpcRequest, hdec]
        · simp [handleJsonRpcRequest, hdec, createErrorResponse]
    | other v =>
        refine Or.inr ⟨.other v, Or.inl rfl, ?_,
          ⟨{ jsonrpc := "2.0", id := .null, result := none
             error := some { code := -32603, message := "Internal error" } }, ?_, rfl, rfl⟩⟩
        · simp [handleJsonRpcRequest, hdec]
        · simp [handleJsonRpcRequest, hdec, createErrorResponse]
  · rcases hp : processJsonRpcMethod s req with ⟨res, s1⟩
    cases res with
    | error e =>
        cases e with
        | error m =>
            refine Or.inr ⟨.error m, Or.inr ⟨req, rfl, by rw [hp]⟩, ?_,
              ⟨{ jsonrpc := "2.0", id := .null, result := none
                 error := some { code := -32603, message := m } }, ?_, rfl, rfl⟩⟩
            · simp [handleJsonRpcRequest, hdec, hp]
            · simp [handleJsonRpcRequest, hdec, hp, createErrorResponse]
        | other v =>
            refine Or.inr ⟨.other v, Or.inr ⟨req, rfl, by rw [hp]⟩, ?_,
              ⟨{ jsonrpc := "2.0", id := .null, result := none
                 error := some { code := -32603, message := "Internal error" } },
               ?_, rfl, rfl⟩⟩
            · simp [handleJsonRpcRequest, hdec, hp]
            · simp [handleJsonRpcRequest, hdec, hp, createErrorResponse]
    | ok r =>
        refine Or.inl ⟨req, r, rfl, by rw [hp], ?_⟩
        cases r <;> simp [handleJsonRpcRequest, hdec, hp]

/-- Registries and the sampling slot survive `handleSetLogLevel`
whatever its outcome: only the log level field can change. -/
theorem handleSetLogLevel_frame (s : ServerState) (params : Option Json) :
    (handleSetLogLevel s params).2.tools = s.tools
    ∧ (handleSetLogLevel s params).2.toolHandlers = s.toolHandlers
    ∧ (handleSetLogLevel s params).2.resources = s.resources
    ∧ (handleSetLogLevel s params).2.resourceHandlers = s.resourceHandlers
    ∧ (handleSetLogLevel s params).2.resourceTemplates = s.resourceTemplates
    ∧ (handleSetLogLevel s params).2.prompts = s.prompts
    ∧ (handleSetLogLevel s params).2.promptHandlers = s.promptHandlers
    ∧ (handleSetLogLevel s params).2.samplingHandler = s.samplingHandler := by
  cases hd : destructure params "level" with
  | error e => simp [handleSetLogLevel, hd]
  | ok levelv =>
      cases levelv with
      | none => simp [handleSetLogLevel, hd]
      | some level =>
          by_cases ht : jsTruthyVal level
          · simp [handleSetLogLevel, hd, ht, setLogLevel]
          · simp [handleSetLogLevel, hd, ht]

/-- C9: processing a single message leaves every registry and the
sampling slot unchanged; the whole state is unchanged unless the method
is `logging/setLevel` (the only mutating branch, and it only stores the
level); and a `tools/call` naming an unregistered tool yields the
unknown-tool error with the state — in particular the action registry —
exactly as it was. -/
theorem c9_frame (s : ServerState) (req : JsonRpcRequest) :
    ((processJsonRpcMethod s req).2.tools = s.tools
     ∧ (processJsonRpcMethod s req).2.toolHandlers = s.toolHandlers
     ∧ (processJsonRpcMethod s req).2.resources = s.resources
     ∧ (processJsonRpcMethod s req).2.resourceHandlers = s.resourceHandlers
     ∧ (processJsonRpcMethod s req).2.resourceTemplates = s.resourceTemplates
     ∧ (processJsonRpcMethod s req).2.prompts = s.prompts
     ∧ (processJsonRpcMethod s req).2.promptHandlers = s.promptHandlers
     ∧ (processJsonRpcMethod s req).2.samplingHandler = s.samplingHandler)
    ∧ (req.method ≠ "logging/setLevel" → (processJsonRpcMethod s req).2 = s)
    ∧ (∀ n, req.method = "tools/call" →
        req.params = some (.obj [("name", .str n)]) →
        mapGet s.toolHandlers n = none →
        (processJsonRpcMethod s req).1 = .error (.error ("Unknown tool: " ++ n))
        ∧ (processJsonRpcMethod s req).2 = s) := by
  refine ⟨?_, ?_, ?_⟩
  · unfold processJsonRpcMethod
    split <;> first
      | exact ⟨rfl, rfl, rfl, rfl, rfl, rfl, rfl, rfl⟩
      | exact handleSetLogLevel_frame s req.params
  · intro hm
    unfold processJsonRpcMethod
    split <;> first | rfl | exact absurd (by assumption) hm
  · intro n hm hp hlook
    have hstep : processJsonRpcMethod s req = (handleToolCall s req.params, s) := by
      unfold processJsonRpcMethod
      rw [hm]
      rfl
    rw [hstep]
    refine ⟨?_, rfl⟩
    simp [handleToolCall, hp, destructure, Json.get, Json.get.lookupField,
      lookupByRawKey, hlook, jsDisplayOpt, jsDisplay]

/-- Witness for C9: a `tools/call` for the unregistered name `nope` on a
fresh server errors with the unknown-tool message and returns the state
untouched. -/
theorem c9_witness :
    (processJsonRpcMethod (mkServer ⟨"srv", "1"⟩)
        { id := some (.num 1), method := "tools/call"
          params := some (.obj [("name", .str "nope")]) }).1
      = .error (.error "Unknown tool: nope")
    ∧ (processJsonRpcMethod (mkServer ⟨"srv", "1"⟩)
        { id := some (.num 1), method := "tools/call"
          params := some (.obj [("name", .str "nope")]) }).2
      = mkServer ⟨"srv", "1"⟩ := by
  have h := c9_frame (mkServer ⟨"srv", "1"⟩)
    { id := some (.num 1), method := "tools/call"
      params := some (.obj [("name", .str "nope")]) }
  exact h.2.2 "nope" rfl rfl rfl

/-- When some argument of the descriptor list is flagged required and
not loosely present, the required-argument loop stops at the first such
argument with the missing-argument error naming it. -/
theorem checkRequiredArgs_missing (argList : List MCPPromptArgument)
    (args : Option Json)
    (hmiss : ∃ a ∈ argList, a.required = true
      ∧ jsTruthy (args.bind (fun j => j.get a.name)) = false) :
    ∃ a ∈ argList, a.required = true
      ∧ jsTruthy (args.bind (fun j => j.get a.name)) = false
      ∧ checkRequiredArgs argList args
          = .error (.error ("Required argument missing: " ++ a.name)) := by
  induction argList with
  | nil =>
      rcases hmiss with ⟨a, ha, _⟩
      cases ha
  | cons a rest ih =>
      by_cases hc : a.required = true
        ∧ jsTruthy (args.bind (fun j => j.get a.name)) = false
      · refine ⟨a, by simp, hc.1, hc.2, ?_⟩
        simp [checkRequiredArgs, hc.1, hc.2]
      · have hcond : (a.required
            && !(jsTruthy (args.bind (fun j => j.get a.name)))) = false := by
          rcases Decidable.not_and_iff_or_not.mp hc with h | h
          · simp [Bool.not_eq_true] at h
            simp [h]
          · simp [Bool.not_eq_false] at h
            simp [h]
        have hmiss2 : ∃ b ∈ rest, b.required = true
            ∧ jsTruthy (args.bind (fun j => j.get b.name)) = false := by
          rcases hmiss with ⟨b, hb, h1, h2⟩
          rcases List.mem_cons.mp hb with hb | hb
          · subst hb
            exact absurd ⟨h1, h2⟩ hc
          · exact ⟨b, hb, h1, h2⟩
        rcases ih hmiss2 with ⟨b, hb, h1, h2, h3⟩
        refine ⟨b, List.mem_cons_of_mem a hb, h1, h2, ?_⟩
        simpa [checkRequiredArgs, hcond] using h3

/-- C6: for a `prompts/get` call resolving to a registered prompt whose
descriptor flags some argument required while `params.arguments` lacks a
truthy value for it, the call fails with the missing-argument error
naming the first such argument, for every registered handler alike —
the handler is never consulted. -/
theorem c6_missing_required_argument (s : ServerState) (params : Option Json)
    (nameStr : String) (prompt : MCPPrompt) (argList : List MCPPromptArgument)
    (args : Option Json)
    (hname : destructure params "name" = .ok (some (.str nameStr)))
    (hargs : destructure params "arguments" = .ok args)
    (hprompt : mapGet s.prompts nameStr = some prompt)
    (hlist : prompt.arguments = some argList)
    (hmiss : ∃ a ∈ argList, a.required = true
      ∧ jsTruthy (args.bind (fun j => j.get a.name)) = false) :
    ∃ a ∈ argList, a.required = true
      ∧ jsTruthy (args.bind (fun j => j.get a.name)) = false
      ∧ ∀ handler, mapGet s.promptHandlers nameStr = some handler →
          handlePromptGet s params
            = .error (.error ("Required argument missing: " ++ a.name)) := by
  rcases checkRequiredArgs_missing argList args hmiss with ⟨a, ha, h1, h2, h3⟩
  refine ⟨a, ha, h1, h2, ?_⟩
  intro handler hhandler
  simp [handlePromptGet, hname, hargs, lookupByRawKey, hprompt, hhandler,
    hlist, h3]

/-- Witness for C6: a prompt with a single required argument `x` called
with no arguments fails with the missing-argument error before any
handler output can appear. -/
theorem c6_witness :
    handlePromptGet
      (addPrompt (mkServer ⟨"srv", "1"⟩)
        { name := "p", description := none
          arguments := some [{ name := "x", description := none, required := true }] }
        (fun _ => .ok (.str "handler-ran")))
      (some (.obj [("name", .str "p")]))
      = .error (.error "Required argument missing: x") := by
  have h := c6_missing_required_argument
    (addPrompt (mkServer ⟨"srv", "1"⟩)
      { name := "p", description := none
        arguments := some [{ name := "x", description := none, required := true }] }
      (fun _ => .ok (.str "handler-ran")))
    (some (.obj [("name", .str "p")])) "p"
    { name := "p", description := none
      arguments := some [{ name := "x", description := none, required := true }] }
    [{ name := "x", description := none, required := true }] none
    rfl rfl rfl rfl
    ⟨{ name := "x", description := none, required := true }, by simp, rfl, rfl⟩
  rcases h with ⟨a, ha, h1, h2, h3⟩
  have hres := h3 (fun _ => .ok (.str "handler-ran")) rfl
  rw [List.mem_singleton] at ha
  rw [hres, ha]
  rfl

/-- Counterexample to C7: with a handler configured and `params` absent
altogether, `messages` is absent, yet the call does not fail with the
invalid-sampling-request message — `params.messages` throws a
`TypeError` (platform text, modelled by a fixed string) before the
validation ever runs. -/
theorem c7_counterexample :
    handleSampling (setSamplingHandler (mkServer ⟨"srv", "1"⟩) (fun j => .ok j)) none
      = .error (.error "Cannot read properties of undefined (reading messages)")
    ∧ "Cannot read properties of undefined (reading messages)"
      ≠ "Messages array is required and cannot be empty" :=
  ⟨rfl, by decide⟩

/-- C7 as amended: with no handler the call fails with the
not-configured error whatever the params; with a handler and an object
params, the messages validation fails exactly unless `messages` is a
non-empty array, and otherwise the handler's result is returned
verbatim; with a handler and an absent or null params the failure is a
property-access error, not the invalid-sampling-request one. -/
theorem c7_amended_sampling (s : ServerState) (params : Option Json) :
    (s.samplingHandler = none →
        handleSampling s params = .error (.error "Sampling handler not configured"))
    ∧ (∀ handler j, s.samplingHandler = some handler → params = some j →
        j ≠ .null →
        ((samplingMessagesInvalid (j.get "messages") = true →
            handleSampling s params
              = .error (.error "Messages array is required and cannot be empty"))
         ∧ (samplingMessagesInvalid (j.get "messages") = false →
            handleSampling s params = handler j)
         ∧ (samplingMessagesInvalid (j.get "messages") = false ↔
            ∃ l, j.get "messages" = some (.arr l) ∧ l ≠ [])))
    ∧ (∀ handler, s.samplingHandler = some handler →
        params = none ∨ params = some .null →
        ∃ m, handleSampling s params = .error (.error m)
          ∧ m ≠ "Messages array is required and cannot be empty"
          ∧ m ≠ "Sampling handler not configured") := by
  refine ⟨?_, ?_, ?_⟩
  · intro hnone
    simp [handleSampling, hnone]
  · intro handler j hh hp hnull
    subst hp
    have hred : ∀ (z : Except Thrown Json),
        (match some j with
          | none => .error (.error
              "Cannot read properties of undefined (reading messages)")
          | some .null => .error (.error
              "Cannot read properties of null (reading messages)")
          | some jv =>
              if samplingMessagesInvalid (jv.get "messages") then
                .error (.error "Messages array is required and cannot be empty")
              else handler jv) = z →
        handleSampling s (some j) = z := by
      intro z hz
      rw [handleSampling, hh]
      exact hz
    refine ⟨?_, ?_, ?_⟩
    · intro hinv
      apply hred
      cases j <;> simp_all
    · intro hval
      apply hred
      cases j <;> simp_all
    · cases hm : j.get "messages" with
      | none => simp [samplingMessagesInvalid, hm, jsTruthy]
      | some v =>
          cases v <;>
            simp [samplingMessagesInvalid, hm, jsTruthy, jsTruthyVal,
              List.isEmpty_iff]
  · intro handler hh hp
    rcases hp with hp | hp <;> subst hp
    · exact ⟨"Cannot read properties of undefined (reading messages)",
        by simp [handleSampling, hh], by decide, by decide⟩
    · exact ⟨"Cannot read properties of null (reading messages)",
        by simp [handleSampling, hh], by decide, by decide⟩

/-- Witness for C7's amended claim: a configured handler receives the
params verbatim once `messages` is a non-empty array. -/
theorem c7_witness :
    handleSampling
      (setSamplingHandler (mkServer ⟨"srv", "1"⟩) (fun _ => .ok (.str "sampled")))
      (some (.obj [("messages", .arr [.str "m"])]))
      = .ok (.str "sampled") := by
  have h := c7_amended_sampling
    (setSamplingHandler (mkServer ⟨"srv", "1"⟩) (fun _ => .ok (.str "sampled")))
    (some (.obj [("messages", .arr [.str "m"])]))
  exact (h.2.1 (fun _ => .ok (.str "sampled"))
    (.obj [("messages", .arr [.str "m"])]) rfl rfl (by simp)).2.1 rfl

/-- Modelled from the amended spec words for the required envelope
shape: an object whose protocol version tag is the literal `2.0`, whose
identifier is a string, a number, null, or absent, whose method name is
a string — any string, the empty string included (this is where the
original claim text, which demanded a non-empty string, fails on the
code) — and whose params are optional and unconstrained. -/
def specShapeOk (j : Json) : Bool :=
  match j with
  | .obj fields =>
      (match Json.get.lookupField fields "jsonrpc" with
       | some (.str v) => v == "2.0"
       | _ => false)
      && (match Json.get.lookupField fields "id" with
          | none => true
          | some (.str _) => true
          | some (.num _) => true
          | some .null => true
          | some _ => false)
      && (match Json.get.lookupField fields "method" with
          | some (.str _) => true
          | _ => false)
  | _ => false

/-- The zod schema accepts exactly the spec shape (with method being any
string). -/
theorem parseJsonRpcRequest_iff_specShape (j : Json) :
    (∃ req, parseJsonRpcRequest j = some req) ↔ specShapeOk j = true := by
  cases j with
  | obj fields =>
      simp only [parseJsonRpcRequest, specShapeOk]
      cases h1 : Json.get.lookupField fields "jsonrpc" with
      | none => simp
      | some v1 =>
          cases v1 with
          | str s1 =>
              by_cases hv : s1 = "2.0"
              · subst hv
                simp only [if_pos rfl, beq_self_eq_true, Bool.true_and]
                cases h2 : Json.get.lookupField fields "method" with
                | none => simp
                | some v2 =>
                    cases v2 with
                    | str m =>
                        cases h3 : Json.get.lookupField fields "id" with
                        | none => simp
                        | some idv => cases idv <;> simp
                    | null => simp
                    | bool b => simp
                    | num n => simp
                    | arr l => simp
                    | obj f2 => simp
              · simp [hv]
          | null => simp
          | bool b => simp
          | num n => simp
          | arr l => simp
          | obj f2 => simp
  | null => simp [parseJsonRpcRequest, specShapeOk]
  | bool b => simp [parseJsonRpcRequest, specShapeOk]
  | num n => simp [parseJsonRpcRequest, specShapeOk]
  | str s => simp [parseJsonRpcRequest, specShapeOk]
  | arr l => simp [parseJsonRpcRequest, specShapeOk]

/-- Counterexample to C4: a body whose `method` is the empty string
decodes successfully — `z.string()` imposes no non-emptiness, so the
claimed MalformedEnvelope failure does not happen. -/
theorem c4_counterexample :
    decodeBody "\x7b\"jsonrpc\":\"2.0\",\"method\":\"\"\x7d"
      (some (.obj [("jsonrpc", .str "2.0"), ("method", .str "")]))
      = .ok { id := none, method := "", params := none }
    ∧ ({ id := none, method := "", params := none } : JsonRpcRequest).method = "" :=
  ⟨rfl, rfl⟩

/-- C4 as amended: decoding succeeds exactly when the body is not
empty/whitespace-only, the underlying format parse succeeds, and the
parsed value has the required shape — version tag fixed to the literal,
id a string, number, null or absent, method any string (the empty string
allowed), params optional and unconstrained; in every other case it
fails with the malformed-envelope error. -/
theorem c4_amended_decode (raw : String) (parsed : Option Json) :
    (∃ req, decodeBody raw parsed = .ok req)
      ↔ (jsTrim raw ≠ "" ∧ ∃ j, parsed = some j ∧ specShapeOk j = true) := by
  by_cases htrim : jsTrim raw = ""
  · simp [decodeBody, htrim]
  · cases parsed with
    | none => simp [decodeBody, htrim]
    | some j =>
        rw [show (∃ req, decodeBody raw (some j) = .ok req)
            ↔ (∃ req, parseJsonRpcRequest j = some req) from ?_,
          parseJsonRpcRequest_iff_specShape]
        · simp [htrim]
        · constructor
          · rintro ⟨req, hreq⟩
            refine ⟨req, ?_⟩
            simp only [decodeBody, htrim, if_false] at hreq
            cases hp : parseJsonRpcRequest j with
            | none => rw [hp] at hreq; cases hreq
            | some r => rw [hp] at hreq; cases hreq; rfl
          · rintro ⟨req, hreq⟩
            exact ⟨req, by simp [decodeBody, htrim, hreq]⟩

/-- Witness for C4's amended decode criterion: a non-blank body parsing
to a conforming object (method `ping`) decodes successfully. -/
theorem c4_witness :
    ∃ req, decodeBody "\x7b\"jsonrpc\":\"2.0\",\"method\":\"ping\"\x7d"
      (some (.obj [("jsonrpc", .str "2.0"), ("method", .str "ping")])) = .ok req := by
  have h := c4_amended_decode "\x7b\"jsonrpc\":\"2.0\",\"method\":\"ping\"\x7d"
    (some (.obj [("jsonrpc", .str "2.0"), ("method", .str "ping")]))
  exact h.mpr ⟨by decide, .obj [("jsonrpc", .str "2.0"), ("method", .str "ping")],
    rfl, by decide⟩

end LiteMCP
